import Mathlib

/-!
Verification development for `scripts/python/mig_load_data.py`: a one-shot
batch loader that uploads local `<table>.csv.gz` files into the internal
stage `MIGRATION_LOAD_STAGE` of a warehouse, bulk-loads each file into its
table with COPY INTO, and archives a successfully loaded file by re-uploading
it under the `processed` folder and removing it from the `not_processed`
folder.  The embedding models the observable behaviour of one run of `main`:
the sequence of SQL statements issued through the cursor, the resulting stage
contents, the exit behaviour, and the connection lifecycle.
-/

namespace MigLoadData

/-- Constant STAGE_NAME of the script (line 7). -/
def STAGE_NAME : String := "MIGRATION_LOAD_STAGE"

/-- Constant PATH_TODO of the script (line 8): the pending folder. -/
def PATH_TODO : String := "not_processed"

/-- Constant PATH_DONE of the script (line 9): the done folder. -/
def PATH_DONE : String := "processed"

/-- The ON_ERROR option a COPY INTO statement can carry. -/
inductive OnError where
  | continueLoad
  | skipFile
  | abortStatement
deriving DecidableEq

/-- The FILE_FORMAT and load options carried by a COPY INTO statement. -/
structure CopyFormat where
  typ : String
  skipHeader : Nat
  fieldOptionallyEnclosedBy : Option Char
  nullIf : List String
  onError : OnError
  purge : Bool
deriving DecidableEq

/-- The options the script builds into copy_sql (lines 63-74): TYPE CSV,
SKIP_HEADER=1, FIELD_OPTIONALLY_ENCLOSED_BY=the double-quote character,
NULL_IF=(NULL, nan, backslash-N) — the Python literal with four backslashes
denotes, after Python and SQL unescaping, the two-character token
backslash-N — ON_ERROR=CONTINUE and PURGE=FALSE. -/
def codeCopyFormat : CopyFormat :=
  { typ := "CSV"
    skipHeader := 1
    fieldOptionallyEnclosedBy := some '"'
    nullIf := ["NULL", "nan", "\\N"]
    onError := OnError.continueLoad
    purge := false }

/-- Modelled from the documented warehouse semantics of COPY INTO (external
to this repository): whether the statement itself fails, as a function of the
number of staged rows that fail to parse.  With ON_ERROR=CONTINUE the
statement skips bad rows and never fails because of them; with SKIP_FILE the
file is skipped but the statement completes; with ABORT_STATEMENT the
statement fails as soon as one row is bad. -/
def copyStatementFails (oe : OnError) (badRows : Nat) : Bool :=
  match oe with
  | OnError.continueLoad => false
  | OnError.skipFile => false
  | OnError.abortStatement => decide (0 < badRows)

/-- One SQL statement executed through the cursor by `main`. -/
inductive Stmt where
  | useSchema
  | createStage (ifNotExists : Bool)
  | put (folder : String) (filename : String) (overwrite : Bool)
  | copyInto (table : String) (filename : String) (fmt : CopyFormat)
  | remove (folder : String) (filename : String)
deriving DecidableEq

/-- The observable stage contents: the filenames present under the
`not_processed` folder and under the `processed` folder. -/
structure Stage where
  todo : List String
  done : List String
deriving DecidableEq

/-- Effect of PUT ... OVERWRITE=TRUE on one folder listing: the file is
present afterwards (its contents replaced when it was already there). -/
def putFile (l : List String) (f : String) : List String :=
  if f ∈ l then l else f :: l

/-- Effect of REMOVE on one folder listing. -/
def removeFile (l : List String) (f : String) : List String :=
  l.filter (fun x => x != f)

/-- How each statement transforms the stage contents.  Statements other than
PUT and REMOVE leave the stage folders unchanged. -/
def applyStmt (st : Stage) : Stmt → Stage
  | Stmt.put folder f _ =>
      if folder = PATH_TODO then { st with todo := putFile st.todo f }
      else if folder = PATH_DONE then { st with done := putFile st.done f }
      else st
  | Stmt.remove folder f =>
      if folder = PATH_TODO then { st with todo := removeFile st.todo f }
      else if folder = PATH_DONE then { st with done := removeFile st.done f }
      else st
  | _ => st

/-- Stage contents after running every statement of a trace in order. -/
def runStage (st : Stage) (tr : List Stmt) : Stage :=
  tr.foldl applyStmt st

/-- Inputs of one run: whether snowflake.connector.connect succeeds, the
configured DATA_TABLES_TO_EXPORT list, the filenames present in
OUTPUT_DIR_DATA (what os.path.exists sees), and which tables the warehouse
accepts the COPY INTO statement for. -/
structure Env where
  connOk : Bool
  tables : List String
  localFiles : List String
  loadOk : String → Bool

/-- The statements of one loop iteration whose COPY succeeds: PUT into the
pending folder (line 54), COPY INTO (line 77), then the move step — PUT into
the done folder (line 89) and REMOVE from the pending folder (line 90). -/
def iterSuccess (t : String) : List Stmt :=
  [ Stmt.put PATH_TODO (t ++ ".csv.gz") true
  , Stmt.copyInto t (t ++ ".csv.gz") codeCopyFormat
  , Stmt.put PATH_DONE (t ++ ".csv.gz") true
  , Stmt.remove PATH_TODO (t ++ ".csv.gz") ]

/-- The statements of one loop iteration whose COPY raises: PUT into the
pending folder, then the failing COPY INTO; the ProgrammingError is re-raised
(line 96), so nothing further is issued for this table. -/
def iterFailure (t : String) : List Stmt :=
  [ Stmt.put PATH_TODO (t ++ ".csv.gz") true
  , Stmt.copyInto t (t ++ ".csv.gz") codeCopyFormat ]

/-- The for-loop of `main` (lines 39-96): the statements executed and the
first table whose COPY raised, when there is one (the loop aborts there).  A
table whose local file is missing is skipped (lines 43-45). -/
def processTables (env : Env) : List String → List Stmt × Option String
  | [] => ([], none)
  | t :: rest =>
      if (t ++ ".csv.gz") ∈ env.localFiles then
        if env.loadOk t then
          let r := processTables env rest
          (iterSuccess t ++ r.1, r.2)
        else
          (iterFailure t, some t)
      else
        processTables env rest

/-- How the process ends. -/
inductive RunResult where
  | success
  | criticalExit
  | connError
deriving DecidableEq

/-- The observable outcome of one run of `main`. -/
structure RunOut where
  trace : List Stmt
  result : RunResult
  acquireCalls : Nat
  closeCalls : Nat
deriving DecidableEq

/-- The `main` function of the script (lines 23-104).  get_connection is
called first, outside the try/except/finally block: when it raises, nothing
else runs and the exception propagates (`connError`, zero close calls).
Otherwise the schema is set (line 31), the stage is created IF NOT EXISTS
(line 34), the loop runs; a re-raised COPY error reaches the outer except
which prints and calls exit(1) (`criticalExit`), and the finally clause
closes the connection exactly once on both paths. -/
def main (env : Env) : RunOut :=
  if env.connOk then
    let r := processTables env env.tables
    { trace := Stmt.useSchema :: Stmt.createStage true :: r.1
      result := if r.2.isSome then RunResult.criticalExit else RunResult.success
      acquireCalls := 1
      closeCalls := 1 }
  else
    { trace := [], result := RunResult.connError, acquireCalls := 1, closeCalls := 0 }

/-- The statements of a trace paired with the stage contents right after each
one executes. -/
def execStates (st : Stage) : List Stmt → List (Stmt × Stage)
  | [] => []
  | s :: rest => (s, applyStmt st s) :: execStates (applyStmt st s) rest

/-- Whether a statement is the first half of the two-statement move step (the
PUT into the done folder): the point right after it is the transient the
documented invariant tolerates. -/
def isMovePut : Stmt → Bool
  | Stmt.put folder _ _ => folder == PATH_DONE
  | _ => false

/-- The stable points of executing a trace from stage contents `st0`: the
initial contents, plus the contents after every statement other than the
move PUT. -/
def stableStates (st0 : Stage) (tr : List Stmt) : List Stage :=
  st0 :: (execStates st0 tr).filterMap
    (fun p => if isMovePut p.1 then none else some p.2)

/-- Number of configured tables whose staged filename is `fn`. -/
def countFn (fn : String) : List String → Nat
  | [] => 0
  | t :: rest => (if t ++ ".csv.gz" = fn then 1 else 0) + countFn fn rest

theorem putFile_mem_self (l : List String) (f : String) : f ∈ putFile l f := by
  unfold putFile
  split
  · assumption
  · exact List.mem_cons_self f l

theorem putFile_mem_iff {a f : String} (l : List String) (h : a ≠ f) :
    a ∈ putFile l f ↔ a ∈ l := by
  unfold putFile
  split
  · exact Iff.rfl
  · simp [List.mem_cons, h]

theorem removeFile_not_mem_self (l : List String) (f : String) :
    f ∉ removeFile l f := by
  unfold removeFile
  intro h
  have := (List.mem_filter.mp h).2
  simp at this

theorem removeFile_mem_iff {a f : String} (l : List String) (h : a ≠ f) :
    a ∈ removeFile l f ↔ a ∈ l := by
  unfold removeFile
  rw [List.mem_filter]
  simp [bne_iff_ne, h]

theorem path_done_ne_todo : PATH_DONE ≠ PATH_TODO := by decide

theorem applyStmt_useSchema (st : Stage) : applyStmt st Stmt.useSchema = st := rfl

theorem applyStmt_createStage (st : Stage) (b : Bool) :
    applyStmt st (Stmt.createStage b) = st := rfl

theorem applyStmt_copyInto (st : Stage) (t f : String) (fmt : CopyFormat) :
    applyStmt st (Stmt.copyInto t f fmt) = st := rfl

theorem applyStmt_putTodo (st : Stage) (f : String) (b : Bool) :
    applyStmt st (Stmt.put PATH_TODO f b) = { st with todo := putFile st.todo f } := by
  simp [applyStmt]

theorem applyStmt_putDone (st : Stage) (f : String) (b : Bool) :
    applyStmt st (Stmt.put PATH_DONE f b) = { st with done := putFile st.done f } := by
  simp [applyStmt, path_done_ne_todo]

theorem applyStmt_removeTodo (st : Stage) (f : String) :
    applyStmt st (Stmt.remove PATH_TODO f) = { st with todo := removeFile st.todo f } := by
  simp [applyStmt]

theorem isMovePut_putTodo (f : String) (b : Bool) :
    isMovePut (Stmt.put PATH_TODO f b) = false := by
  simp [isMovePut]
  decide

theorem isMovePut_putDone (f : String) (b : Bool) :
    isMovePut (Stmt.put PATH_DONE f b) = true := by
  simp [isMovePut]

theorem isMovePut_copyInto (t f : String) (fmt : CopyFormat) :
    isMovePut (Stmt.copyInto t f fmt) = false := rfl

theorem isMovePut_removeTodo (f : String) :
    isMovePut (Stmt.remove PATH_TODO f) = false := rfl

theorem runStage_nil (st : Stage) : runStage st [] = st := rfl

theorem runStage_cons (st : Stage) (s : Stmt) (tr : List Stmt) :
    runStage st (s :: tr) = runStage (applyStmt st s) tr := rfl

theorem runStage_append (st : Stage) (l1 l2 : List Stmt) :
    runStage st (l1 ++ l2) = runStage (runStage st l1) l2 :=
  List.foldl_append _ _ _ _

theorem execStates_append (l1 l2 : List Stmt) :
    ∀ st : Stage, execStates st (l1 ++ l2)
      = execStates st l1 ++ execStates (runStage st l1) l2 := by
  induction l1 with
  | nil => intro st; simp [execStates, runStage_nil]
  | cons s rest ih =>
      intro st
      rw [List.cons_append]
      show (s, applyStmt st s) :: execStates (applyStmt st s) (rest ++ l2) = _
      rw [ih (applyStmt st s), runStage_cons]
      rfl

theorem mem_stableStates_append {st : Stage} {l1 l2 : List Stmt} {s : Stage}
    (h : s ∈ stableStates st (l1 ++ l2)) :
    s ∈ stableStates st l1 ∨ s ∈ stableStates (runStage st l1) l2 := by
  unfold stableStates at *
  rw [execStates_append, List.filterMap_append] at h
  rcases List.mem_cons.mp h with rfl | h2
  · exact Or.inl (List.mem_cons_self _ _)
  · rcases List.mem_append.mp h2 with h3 | h4
    · exact Or.inl (List.mem_cons_of_mem _ h3)
    · exact Or.inr (List.mem_cons_of_mem _ h4)

theorem runStage_iterSuccess (st : Stage) (t : String) :
    runStage st (iterSuccess t)
      = { todo := removeFile (putFile st.todo (t ++ ".csv.gz")) (t ++ ".csv.gz"),
          done := putFile st.done (t ++ ".csv.gz") } := by
  simp [iterSuccess, runStage_cons, runStage_nil, applyStmt_putTodo, applyStmt_copyInto,
        applyStmt_putDone, applyStmt_removeTodo]

theorem runStage_iterFailure (st : Stage) (t : String) :
    runStage st (iterFailure t) = { st with todo := putFile st.todo (t ++ ".csv.gz") } := by
  simp [iterFailure, runStage_cons, runStage_nil, applyStmt_putTodo, applyStmt_copyInto]

theorem stableStates_iterSuccess (st : Stage) (t : String) :
    stableStates st (iterSuccess t)
      = [ st,
          { st with todo := putFile st.todo (t ++ ".csv.gz") },
          { st with todo := putFile st.todo (t ++ ".csv.gz") },
          { todo := removeFile (putFile st.todo (t ++ ".csv.gz")) (t ++ ".csv.gz"),
            done := putFile st.done (t ++ ".csv.gz") } ] := by
  simp [stableStates, execStates, iterSuccess, List.filterMap_cons,
        applyStmt_putTodo, applyStmt_copyInto, applyStmt_putDone, applyStmt_removeTodo,
        isMovePut_putTodo, isMovePut_putDone, isMovePut_copyInto, isMovePut_removeTodo]

theorem stableStates_iterFailure (st : Stage) (t : String) :
    stableStates st (iterFailure t)
      = [ st,
          { st with todo := putFile st.todo (t ++ ".csv.gz") },
          { st with todo := putFile st.todo (t ++ ".csv.gz") } ] := by
  simp [stableStates, execStates, iterFailure, List.filterMap_cons,
        applyStmt_putTodo, applyStmt_copyInto, isMovePut_putTodo, isMovePut_copyInto]

theorem processTables_nil (env : Env) : processTables env [] = ([], none) := rfl

theorem processTables_missing (env : Env) {t : String} (rest : List String)
    (h : (t ++ ".csv.gz") ∉ env.localFiles) :
    processTables env (t :: rest) = processTables env rest := by
  simp [processTables, h]

theorem processTables_success (env : Env) {t : String} (rest : List String)
    (hloc : (t ++ ".csv.gz") ∈ env.localFiles) (hok : env.loadOk t = true) :
    processTables env (t :: rest)
      = (iterSuccess t ++ (processTables env rest).1, (processTables env rest).2) := by
  simp [processTables, hloc, hok]

theorem processTables_failure (env : Env) {t : String} (rest : List String)
    (hloc : (t ++ ".csv.gz") ∈ env.localFiles) (hok : env.loadOk t = false) :
    processTables env (t :: rest) = (iterFailure t, some t) := by
  simp [processTables, hloc, hok]

theorem main_connOk (env : Env) (h : env.connOk = true) :
    main env
      = { trace := Stmt.useSchema :: Stmt.createStage true :: (processTables env env.tables).1,
          result := if (processTables env env.tables).2.isSome then RunResult.criticalExit
                    else RunResult.success,
          acquireCalls := 1, closeCalls := 1 } := by
  simp [main, h]

theorem main_connFail (env : Env) (h : env.connOk = false) :
    main env = { trace := [], result := RunResult.connError,
                 acquireCalls := 1, closeCalls := 0 } := by
  simp [main, h]

theorem processTables_append (env : Env) :
    ∀ l1 l2 : List String, (processTables env l1).2 = none →
      processTables env (l1 ++ l2)
        = ((processTables env l1).1 ++ (processTables env l2).1, (processTables env l2).2) := by
  intro l1
  induction l1 with
  | nil => intro l2 _; simp [processTables_nil]
  | cons t rest ih =>
      intro l2 h
      by_cases hloc : (t ++ ".csv.gz") ∈ env.localFiles
      · by_cases hok : env.loadOk t = true
        · rw [processTables_success env rest hloc hok] at h
          rw [List.cons_append, processTables_success env (rest ++ l2) hloc hok,
              processTables_success env rest hloc hok, ih l2 h]
          simp
        · have hok' : env.loadOk t = false := by simpa using hok
          rw [processTables_failure env rest hloc hok'] at h
          simp at h
      · rw [processTables_missing env rest hloc] at h
        rw [List.cons_append, processTables_missing env (rest ++ l2) hloc,
            processTables_missing env rest hloc]
        exact ih l2 h

theorem processTables_all_missing (env : Env) :
    ∀ tables : List String, (∀ t ∈ tables, (t ++ ".csv.gz") ∉ env.localFiles) →
      processTables env tables = ([], none) := by
  intro tables
  induction tables with
  | nil => intro _; rfl
  | cons t rest ih =>
      intro h
      rw [processTables_missing env rest (h t (List.mem_cons_self t rest))]
      exact ih (fun u hu => h u (List.mem_cons_of_mem t hu))

theorem processTables_copy_fmt (env : Env) :
    ∀ (tables : List String) (t f : String) (fmt : CopyFormat),
      Stmt.copyInto t f fmt ∈ (processTables env tables).1 → fmt = codeCopyFormat := by
  intro tables
  induction tables with
  | nil => intro t f fmt h; simp [processTables_nil] at h
  | cons u rest ih =>
      intro t f fmt h
      by_cases hloc : (u ++ ".csv.gz") ∈ env.localFiles
      · by_cases hok : env.loadOk u = true
        · rw [processTables_success env rest hloc hok] at h
          rcases List.mem_append.mp h with h1 | h2
          · simp [iterSuccess] at h1
            exact h1.2.2
          · exact ih t f fmt h2
        · have hok' : env.loadOk u = false := by simpa using hok
          rw [processTables_failure env rest hloc hok'] at h
          simp [iterFailure] at h
          exact h.2.2
      · rw [processTables_missing env rest hloc] at h
        exact ih t f fmt h

theorem stable_inv_aux (env : Env) (fn : String) :
    ∀ (tables : List String) (st : Stage),
      ¬(fn ∈ st.todo ∧ fn ∈ st.done) →
      countFn fn tables + (if fn ∈ st.done then 1 else 0) ≤ 1 →
      ∀ s ∈ stableStates st (processTables env tables).1,
        ¬(fn ∈ s.todo ∧ fn ∈ s.done) := by
  intro tables
  induction tables with
  | nil =>
      intro st h1 _ s hs
      rw [processTables_nil] at hs
      simp only [stableStates, execStates, List.filterMap_nil, List.mem_singleton] at hs
      subst hs
      exact h1
  | cons t rest ih =>
      intro st h1 h2 s hs
      by_cases hloc : (t ++ ".csv.gz") ∈ env.localFiles
      · by_cases hok : env.loadOk t = true
        · rw [processTables_success env rest hloc hok] at hs
          by_cases hg : t ++ ".csv.gz" = fn
          · subst hg
            have hd : (t ++ ".csv.gz") ∉ st.done := by
              intro hdm
              rw [countFn, if_pos rfl, if_pos hdm] at h2
              omega
            have hcnt : countFn (t ++ ".csv.gz") rest = 0 := by
              rw [countFn, if_pos rfl, if_neg hd] at h2
              omega
            rcases mem_stableStates_append hs with h | h
            · rw [stableStates_iterSuccess] at h
              simp only [List.mem_cons, List.not_mem_nil, or_false] at h
              rcases h with rfl | rfl | rfl | rfl
              · exact h1
              · intro hb; exact hd hb.2
              · intro hb; exact hd hb.2
              · intro hb; exact removeFile_not_mem_self _ _ hb.1
            · rw [runStage_iterSuccess] at h
              refine ih _ ?_ ?_ s h
              · intro hb; exact removeFile_not_mem_self _ _ hb.1
              · rw [hcnt, if_pos (putFile_mem_self st.done _)]
          · have hg' : fn ≠ t ++ ".csv.gz" := fun e => hg e.symm
            have htodo_iff : fn ∈ putFile st.todo (t ++ ".csv.gz") ↔ fn ∈ st.todo :=
              putFile_mem_iff st.todo hg'
            have hdone_iff : fn ∈ putFile st.done (t ++ ".csv.gz") ↔ fn ∈ st.done :=
              putFile_mem_iff st.done hg'
            have htodo4_iff :
                fn ∈ removeFile (putFile st.todo (t ++ ".csv.gz")) (t ++ ".csv.gz")
                  ↔ fn ∈ st.todo :=
              (removeFile_mem_iff _ hg').trans htodo_iff
            rcases mem_stableStates_append hs with h | h
            · rw [stableStates_iterSuccess] at h
              simp only [List.mem_cons, List.not_mem_nil, or_false] at h
              rcases h with rfl | rfl | rfl | rfl
              · exact h1
              · intro hb; exact h1 ⟨htodo_iff.mp hb.1, hb.2⟩
              · intro hb; exact h1 ⟨htodo_iff.mp hb.1, hb.2⟩
              · intro hb; exact h1 ⟨htodo4_iff.mp hb.1, hdone_iff.mp hb.2⟩
            · rw [runStage_iterSuccess] at h
              refine ih _ ?_ ?_ s h
              · intro hb; exact h1 ⟨htodo4_iff.mp hb.1, hdone_iff.mp hb.2⟩
              · rw [countFn, if_neg hg] at h2
                simp only [hdone_iff]
                omega
        · have hok' : env.loadOk t = false := by simpa using hok
          rw [processTables_failure env rest hloc hok'] at hs
          rw [stableStates_iterFailure] at hs
          by_cases hg : t ++ ".csv.gz" = fn
          · subst hg
            have hd : (t ++ ".csv.gz") ∉ st.done := by
              intro hdm
              rw [countFn, if_pos rfl, if_pos hdm] at h2
              omega
            simp only [List.mem_cons, List.not_mem_nil, or_false] at hs
            rcases hs with rfl | rfl | rfl
            · exact h1
            · intro hb; exact hd hb.2
            · intro hb; exact hd hb.2
          · have hg' : fn ≠ t ++ ".csv.gz" := fun e => hg e.symm
            have htodo_iff : fn ∈ putFile st.todo (t ++ ".csv.gz") ↔ fn ∈ st.todo :=
              putFile_mem_iff st.todo hg'
            simp only [List.mem_cons, List.not_mem_nil, or_false] at hs
            rcases hs with rfl | rfl | rfl
            · exact h1
            · intro hb; exact h1 ⟨htodo_iff.mp hb.1, hb.2⟩
            · intro hb; exact h1 ⟨htodo_iff.mp hb.1, hb.2⟩
      · rw [processTables_missing env rest hloc] at hs
        refine ih st h1 ?_ s hs
        rw [countFn] at h2
        split_ifs at h2 ⊢ <;> omega

theorem main_trace_connOk (env : Env) (h : env.connOk = true) :
    (main env).trace
      = Stmt.useSchema :: Stmt.createStage true :: (processTables env env.tables).1 := by
  rw [main_connOk env h]

theorem main_result_connOk (env : Env) (h : env.connOk = true) :
    (main env).result
      = if (processTables env env.tables).2.isSome then RunResult.criticalExit
        else RunResult.success := by
  rw [main_connOk env h]

theorem main_trace_connFail (env : Env) (h : env.connOk = false) :
    (main env).trace = [] := by
  rw [main_connFail env h]

theorem isMovePut_useSchema : isMovePut Stmt.useSchema = false := rfl

theorem isMovePut_createStage (b : Bool) : isMovePut (Stmt.createStage b) = false := rfl

theorem stableStates_setup (st0 : Stage) :
    stableStates st0 [Stmt.useSchema, Stmt.createStage true] = [st0, st0, st0] := by
  simp [stableStates, execStates, List.filterMap_cons, applyStmt_useSchema,
        applyStmt_createStage, isMovePut_useSchema, isMovePut_createStage]

/-- A run input with one table A, its local file present and every COPY
accepted by the warehouse. -/
def envAllOk : Env :=
  { connOk := true, tables := ["A"], localFiles := ["A.csv.gz"], loadOk := fun _ => true }

/-- A run input with one table A, its local file present, and the COPY for
every table raising a ProgrammingError. -/
def envLoadFail : Env :=
  { connOk := true, tables := ["A"], localFiles := ["A.csv.gz"], loadOk := fun _ => false }

/-- A run input whose connection attempt itself raises. -/
def envConnFail : Env :=
  { connOk := false, tables := ["A"], localFiles := ["A.csv.gz"], loadOk := fun _ => true }

/-- A run input with tables A and B where only the file of B exists. -/
def envSkipA : Env :=
  { connOk := true, tables := ["A", "B"], localFiles := ["B.csv.gz"], loadOk := fun _ => true }

/-- A run input with one configured table and no local files at all. -/
def envNoFiles : Env :=
  { connOk := true, tables := ["A"], localFiles := [], loadOk := fun _ => true }

/-- Claim C1: for every table whose local file exists and whose COPY
succeeds, the iteration issues — after the PUT into not_processed and the
successful COPY — first the PUT of the file into the processed folder with
OVERWRITE=TRUE and then the REMOVE of the file from the not_processed
folder; at the end of that iteration the file is present under processed and
no longer present under not_processed, whatever the stage held before. -/
theorem c1_success_moves_file (env : Env) (t : String) (rest : List String) (st : Stage)
    (hloc : (t ++ ".csv.gz") ∈ env.localFiles) (hok : env.loadOk t = true) :
    (processTables env (t :: rest)).1
      = Stmt.put PATH_TODO (t ++ ".csv.gz") true
        :: Stmt.copyInto t (t ++ ".csv.gz") codeCopyFormat
        :: Stmt.put PATH_DONE (t ++ ".csv.gz") true
        :: Stmt.remove PATH_TODO (t ++ ".csv.gz")
        :: (processTables env rest).1
    ∧ (t ++ ".csv.gz") ∈ (runStage st (iterSuccess t)).done
    ∧ (t ++ ".csv.gz") ∉ (runStage st (iterSuccess t)).todo := by
  refine ⟨?_, ?_, ?_⟩
  · rw [processTables_success env rest hloc hok]
    rfl
  · rw [runStage_iterSuccess]
    exact putFile_mem_self _ _
  · rw [runStage_iterSuccess]
    exact removeFile_not_mem_self _ _

theorem c1_witness :
    (processTables envAllOk ("A" :: [])).1
      = Stmt.put PATH_TODO ("A" ++ ".csv.gz") true
        :: Stmt.copyInto "A" ("A" ++ ".csv.gz") codeCopyFormat
        :: Stmt.put PATH_DONE ("A" ++ ".csv.gz") true
        :: Stmt.remove PATH_TODO ("A" ++ ".csv.gz")
        :: (processTables envAllOk []).1
    ∧ ("A" ++ ".csv.gz") ∈ (runStage ⟨[], []⟩ (iterSuccess "A")).done
    ∧ ("A" ++ ".csv.gz") ∉ (runStage ⟨[], []⟩ (iterSuccess "A")).todo :=
  c1_success_moves_file envAllOk "A" [] ⟨[], []⟩ (by decide) rfl

/-- Claim C2: when a reached table raises on its COPY, the run issues
nothing for it beyond the PUT into not_processed and the failing COPY — no
PUT into processed and no REMOVE — and nothing at all for any later table;
the process takes the critical exit (non-zero status), and the table file is
present under not_processed when the run ends. -/
theorem c2_load_failure_aborts (env : Env) (st0 : Stage)
    (pre rest : List String) (t : String)
    (hconn : env.connOk = true)
    (htab : env.tables = pre ++ t :: rest)
    (hpre : (processTables env pre).2 = none)
    (hloc : (t ++ ".csv.gz") ∈ env.localFiles)
    (hfail : env.loadOk t = false) :
    (main env).trace
      = Stmt.useSchema :: Stmt.createStage true
        :: ((processTables env pre).1
            ++ [Stmt.put PATH_TODO (t ++ ".csv.gz") true,
                Stmt.copyInto t (t ++ ".csv.gz") codeCopyFormat])
    ∧ (main env).result = RunResult.criticalExit
    ∧ (t ++ ".csv.gz") ∈ (runStage st0 (main env).trace).todo := by
  have hsplit : processTables env env.tables
      = ((processTables env pre).1 ++ iterFailure t, some t) := by
    rw [htab, processTables_append env pre (t :: rest) hpre,
        processTables_failure env rest hloc hfail]
  have htr : (main env).trace
      = Stmt.useSchema :: Stmt.createStage true
        :: ((processTables env pre).1 ++ iterFailure t) := by
    rw [main_trace_connOk env hconn, hsplit]
  have hres : (main env).result = RunResult.criticalExit := by
    rw [main_result_connOk env hconn, hsplit]
    rfl
  refine ⟨htr, hres, ?_⟩
  rw [htr, runStage_cons, runStage_cons, runStage_append, runStage_iterFailure]
  exact putFile_mem_self _ _

theorem c2_witness :
    (main envLoadFail).trace
      = Stmt.useSchema :: Stmt.createStage true
        :: ((processTables envLoadFail []).1
            ++ [Stmt.put PATH_TODO ("A" ++ ".csv.gz") true,
                Stmt.copyInto "A" ("A" ++ ".csv.gz") codeCopyFormat])
    ∧ (main envLoadFail).result = RunResult.criticalExit
    ∧ ("A" ++ ".csv.gz") ∈ (runStage ⟨[], []⟩ (main envLoadFail).trace).todo :=
  c2_load_failure_aborts envLoadFail ⟨[], []⟩ [] [] "A" rfl rfl rfl (by decide) rfl

/-- Claim C3 as stated is false of the code (code bug): the COPY statement
the script issues carries ON_ERROR=CONTINUE, whose tolerance of bad rows has
no limit — the statement does not fail however many staged rows are bad —
although the comment right above the statement (line 61 of the script) says
ABORT_STATEMENT was intended so that the script fails when data is bad. -/
theorem c3_on_error_unbounded :
    codeCopyFormat.onError = OnError.continueLoad
    ∧ ∀ badRows : Nat, copyStatementFails codeCopyFormat.onError badRows = false :=
  ⟨rfl, fun _ => rfl⟩

/-- Claim C4: a table whose expected local file is missing contributes no
statement at all — the loop continues with the remaining tables exactly as
if the table were not configured — and when no processed table fails the run
still ends in the normal exit with status 0. -/
theorem c4_missing_file_skipped (env : Env) (t : String) (rest : List String)
    (hconn : env.connOk = true)
    (hmiss : (t ++ ".csv.gz") ∉ env.localFiles)
    (hnone : (processTables env env.tables).2 = none) :
    processTables env (t :: rest) = processTables env rest
    ∧ (main env).result = RunResult.success := by
  refine ⟨processTables_missing env rest hmiss, ?_⟩
  rw [main_result_connOk env hconn, hnone]
  rfl

theorem c4_witness :
    processTables envSkipA ("A" :: ["B"]) = processTables envSkipA ["B"]
    ∧ (main envSkipA).result = RunResult.success :=
  c4_missing_file_skipped envSkipA "A" ["B"] rfl (by decide) (by decide)

/-- Claim C5: every COPY INTO a run issues carries exactly the options the
script builds: one header row skipped, quoted-field parsing with the double
quote character, the null tokens NULL, nan and backslash-N, an error mode
that tolerates per-row parse errors (the statement does not fail whatever
the number of bad rows), and no purge of the staged source file. -/
theorem c5_copy_format (env : Env) (t f : String) (fmt : CopyFormat)
    (h : Stmt.copyInto t f fmt ∈ (main env).trace) :
    fmt = codeCopyFormat
    ∧ fmt.skipHeader = 1
    ∧ fmt.fieldOptionallyEnclosedBy = some '"'
    ∧ fmt.nullIf = ["NULL", "nan", "\\N"]
    ∧ (∀ badRows : Nat, copyStatementFails fmt.onError badRows = false)
    ∧ fmt.purge = false := by
  have hfmt : fmt = codeCopyFormat := by
    by_cases hconn : env.connOk = true
    · rw [main_trace_connOk env hconn] at h
      simp only [List.mem_cons] at h
      rcases h with h | h | h
      · simp at h
      · simp at h
      · exact processTables_copy_fmt env env.tables t f fmt h
    · have hc : env.connOk = false := by simpa using hconn
      rw [main_trace_connFail env hc] at h
      simp at h
  subst hfmt
  exact ⟨rfl, rfl, rfl, rfl, fun _ => rfl, rfl⟩

theorem c5_witness :
    codeCopyFormat = codeCopyFormat
    ∧ codeCopyFormat.skipHeader = 1
    ∧ codeCopyFormat.fieldOptionallyEnclosedBy = some '"'
    ∧ codeCopyFormat.nullIf = ["NULL", "nan", "\\N"]
    ∧ (∀ badRows : Nat, copyStatementFails codeCopyFormat.onError badRows = false)
    ∧ codeCopyFormat.purge = false :=
  c5_copy_format envAllOk "A" ("A" ++ ".csv.gz") codeCopyFormat (by decide)

/-- Claim C6 counterexample: start a run from the stage contents a previous
successful run of the script leaves behind — the table file sits under
processed and its local copy still exists — and let the COPY raise.  Right
after the PUT into not_processed (a stable point: the move step has not
begun) the file is in both folders at once, and it still is when the run
ends.  So the invariant fails as stated. -/
theorem c6_cex :
    (stableStates { todo := [], done := ["A.csv.gz"] } (main envLoadFail).trace).any
      (fun s => s.todo.contains "A.csv.gz" && s.done.contains "A.csv.gz") = true := by
  decide

/-- Claim C6 (amended): provided the table file is absent from the processed
folder when the run starts and at most one configured table stages that
filename, every stable point of the run — every point other than the one
between the PUT into processed and the REMOVE from not_processed — has the
file in at most one of the two folders. -/
theorem c6_stable_invariant (env : Env) (st0 : Stage) (t : String)
    (hdone : (t ++ ".csv.gz") ∉ st0.done)
    (hcount : countFn (t ++ ".csv.gz") env.tables ≤ 1) :
    ∀ s ∈ stableStates st0 (main env).trace,
      ¬((t ++ ".csv.gz") ∈ s.todo ∧ (t ++ ".csv.gz") ∈ s.done) := by
  intro s hs
  by_cases hconn : env.connOk = true
  · rw [main_trace_connOk env hconn] at hs
    have hsetup : Stmt.useSchema :: Stmt.createStage true :: (processTables env env.tables).1
        = [Stmt.useSchema, Stmt.createStage true] ++ (processTables env env.tables).1 := rfl
    rw [hsetup] at hs
    rcases mem_stableStates_append hs with h | h
    · rw [stableStates_setup] at h
      simp only [List.mem_cons, List.not_mem_nil, or_false] at h
      rcases h with rfl | rfl | rfl
      all_goals exact fun hb => hdone hb.2
    · have hrs : runStage st0 [Stmt.useSchema, Stmt.createStage true] = st0 := rfl
      rw [hrs] at h
      exact stable_inv_aux env (t ++ ".csv.gz") env.tables st0
        (fun hb => hdone hb.2) (by rw [if_neg hdone]; omega) s h
  · have hc : env.connOk = false := by simpa using hconn
    rw [main_trace_connFail env hc] at hs
    simp only [stableStates, execStates, List.filterMap_nil, List.mem_singleton] at hs
    subst hs
    exact fun hb => hdone hb.2

theorem c6_witness :
    ¬(("A" ++ ".csv.gz") ∈ (runStage ⟨[], []⟩ (main envAllOk).trace).todo
      ∧ ("A" ++ ".csv.gz") ∈ (runStage ⟨[], []⟩ (main envAllOk).trace).done) :=
  c6_stable_invariant envAllOk ⟨[], []⟩ "A" (by decide) (by decide)
    (runStage ⟨[], []⟩ (main envAllOk).trace) (by decide)

/-- Claim C7 counterexample: in the run whose connection attempt raises, the
connection is never closed — zero close calls — although that run is a
failure path, so closed-exactly-once-on-every-path is false as stated. -/
theorem c7_cex :
    (main envConnFail).closeCalls = 0
    ∧ (main envConnFail).result = RunResult.connError :=
  ⟨rfl, rfl⟩

/-- Claim C7 (amended): in every run in which get_connection succeeds, the
connection is acquired exactly once at the start and closed exactly once at
the end, alike on the normal path and on the critical-error path (exit(1)
raises SystemExit, and the finally clause still runs); only when the
connection attempt itself raises is there no connection to close. -/
theorem c7_connection_lifecycle (env : Env) (hconn : env.connOk = true) :
    (main env).acquireCalls = 1 ∧ (main env).closeCalls = 1 := by
  rw [main_connOk env hconn]
  exact ⟨rfl, rfl⟩

theorem c7_witness :
    (main envLoadFail).acquireCalls = 1 ∧ (main envLoadFail).closeCalls = 1 :=
  c7_connection_lifecycle envLoadFail rfl

/-- Claim C8: when get_connection raises, the exception propagates out of
main uncaught: the critical-error handler never runs (the outcome is the
propagated connection error, not the critical exit), no statement is issued,
and the connection-close cleanup never runs, because the connection is
acquired before the try/except/finally block is entered. -/
theorem c8_conn_failure_propagates (env : Env) (hconn : env.connOk = false) :
    (main env).result = RunResult.connError
    ∧ (main env).result ≠ RunResult.criticalExit
    ∧ (main env).trace = []
    ∧ (main env).closeCalls = 0 := by
  rw [main_connFail env hconn]
  exact ⟨rfl, by decide, rfl, rfl⟩

theorem c8_witness :
    (main envConnFail).result = RunResult.connError
    ∧ (main envConnFail).result ≠ RunResult.criticalExit
    ∧ (main envConnFail).trace = []
    ∧ (main envConnFail).closeCalls = 0 :=
  c8_conn_failure_propagates envConnFail rfl

/-- Claim C9: processing one table touches only that table file in the
stage: the iteration of a successfully loaded table contributes exactly its
four statements, the only REMOVE among them names exactly the table file
under not_processed, and the iteration leaves the membership of every other
filename in both folders unchanged. -/
theorem c9_frame (env : Env) (t : String) (rest : List String) (st : Stage)
    (hloc : (t ++ ".csv.gz") ∈ env.localFiles) (hok : env.loadOk t = true) :
    (processTables env (t :: rest)).1 = iterSuccess t ++ (processTables env rest).1
    ∧ (∀ flr f, Stmt.remove flr f ∈ iterSuccess t → flr = PATH_TODO ∧ f = t ++ ".csv.gz")
    ∧ ∀ g : String, g ≠ t ++ ".csv.gz" →
        (g ∈ (runStage st (iterSuccess t)).todo ↔ g ∈ st.todo)
        ∧ (g ∈ (runStage st (iterSuccess t)).done ↔ g ∈ st.done) := by
  refine ⟨?_, ?_, ?_⟩
  · rw [processTables_success env rest hloc hok]
  · intro flr f hf
    simp only [iterSuccess, List.mem_cons, List.not_mem_nil, or_false] at hf
    rcases hf with hf | hf | hf | hf
    · exact absurd hf (by simp)
    · exact absurd hf (by simp)
    · exact absurd hf (by simp)
    · rw [Stmt.remove.injEq] at hf
      exact hf
  · intro g hg
    rw [runStage_iterSuccess]
    exact ⟨(removeFile_mem_iff _ hg).trans (putFile_mem_iff st.todo hg),
           putFile_mem_iff st.done hg⟩

theorem c9_witness :
    (processTables envAllOk ("A" :: [])).1 = iterSuccess "A" ++ (processTables envAllOk []).1
    ∧ (∀ flr f, Stmt.remove flr f ∈ iterSuccess "A" → flr = PATH_TODO ∧ f = "A" ++ ".csv.gz")
    ∧ ∀ g : String, g ≠ "A" ++ ".csv.gz" →
        (g ∈ (runStage ⟨["B.csv.gz"], []⟩ (iterSuccess "A")).todo ↔ g ∈ (⟨["B.csv.gz"], []⟩ : Stage).todo)
        ∧ (g ∈ (runStage ⟨["B.csv.gz"], []⟩ (iterSuccess "A")).done ↔ g ∈ (⟨["B.csv.gz"], []⟩ : Stage).done) :=
  c9_frame envAllOk "A" [] ⟨["B.csv.gz"], []⟩ (by decide) rfl

/-- Claim C10: a run in which no configured table has a local file (an empty
table list included) still sets the schema and creates the stage with CREATE
STAGE IF NOT EXISTS — and issues nothing else: no PUT, no COPY INTO, no
REMOVE — then closes the connection once and ends in the normal exit with
status 0. -/
theorem c10_no_work_run (env : Env)
    (hconn : env.connOk = true)
    (hmiss : ∀ t ∈ env.tables, (t ++ ".csv.gz") ∉ env.localFiles) :
    (main env).trace = [Stmt.useSchema, Stmt.createStage true]
    ∧ (main env).result = RunResult.success
    ∧ (main env).closeCalls = 1 := by
  have h := processTables_all_missing env env.tables hmiss
  rw [main_connOk env hconn, h]
  exact ⟨rfl, rfl, rfl⟩

theorem c10_witness :
    (main envNoFiles).trace = [Stmt.useSchema, Stmt.createStage true]
    ∧ (main envNoFiles).result = RunResult.success
    ∧ (main envNoFiles).closeCalls = 1 :=
  c10_no_work_run envNoFiles rfl (by decide)

end MigLoadData
